import Mathlib

/-!
# The segregated free-list allocator of `mm_seg_store.c`

A shallow embedding of the allocator and machine-checked statements about it.

Conventions of the embedding.

* The target is the LP64 little-endian machine the source's own comments
  describe (`WSIZE = 8 bytes`, `DSIZE = 16 bytes`, `MINBLOCKSIZE = 40 bytes`).
  Pointers and `size_t` values are naturals taken modulo `2 ^ 64`, `int` and
  `unsigned int` bit patterns are naturals below `2 ^ 32`.
* Memory is a map from byte addresses to bytes.  `GET` and `PUT` move an
  `int` (four bytes), the link accessors move a `char *` (eight bytes), the
  directory initialisation of `mm_init` moves one `char`.
* The arena is the address range `[mem_start_brk, mem_max_addr)`.  An access
  that leaves the arena ends the run with `Fault.outOfArena`.
* Functions thread the allocator state explicitly and return in `Except Fault`.
* The source leaves tracing statements in `mm_malloc` and `mm_free`
  (`printf` and `checkheap(true)`).  Output is not modelled; the reads of
  `checkheap` are.  The parameter `trace` of the public operations selects the
  source as written (`true`) or the source with those statements removed
  (`false`).
-/

namespace Malloc

/-! ## Constants and macros -/

/-- Word and header/footer size in bytes: `sizeof(void *)`. -/
def WSIZE : Nat := 8

/-- Doubleword size in bytes. -/
def DSIZE : Nat := 2 * WSIZE

/-- Heap growth unit in bytes: `1 << 12`. -/
def CHUNKSIZE : Nat := 1 <<< 12

/-- Header, footer, data, previous, next. -/
def MINBLOCKSIZE : Nat := 5 * WSIZE

/-- Number of size classes. -/
def NUMFREELISTS : Nat := 8

/-- Modulus of `size_t` and pointer arithmetic. -/
def WORD : Nat := 2 ^ 64

/-- The null pointer. -/
def NULL : Nat := 0

/-- The value `(void *)-1` that the heap extender returns on failure. -/
def MEM_FAILED : Nat := WORD - 1

/-- Reasons for which a run of the allocator has no result. -/
inductive Fault where
  | outOfArena (addr : Nat)
  | diverges
  deriving DecidableEq, Repr

/-- Allocator state: the memory, the heap extender's bookkeeping and the four
file-scope variables of the source. -/
structure State where
  /-- Byte stored at each address. -/
  mem : Nat → Nat
  /-- First byte of the arena. -/
  mem_start_brk : Nat
  /-- Current break: first byte not yet handed out by the heap extender. -/
  mem_brk : Nat
  /-- First byte after the arena. -/
  mem_max_addr : Nat
  heap_listp : Nat
  free_listp : Nat
  heap_arrayp : Nat
  free_list_place : Int

/-- The `n` bytes starting at `p` lie inside the arena. -/
abbrev inArena (s : State) (p n : Nat) : Prop :=
  s.mem_start_brk ≤ p ∧ p + n ≤ s.mem_max_addr

/-- Little-endian value of the `n` bytes at `p`. -/
def loadLE (m : Nat → Nat) (p : Nat) : Nat → Nat
  | 0 => 0
  | n + 1 => m p % 256 + 256 * loadLE m (p + 1) n

/-- Memory after writing the low `n` bytes of `v` at `p`, little-endian. -/
def storeLE (m : Nat → Nat) (p n v : Nat) : Nat → Nat :=
  fun a => if p ≤ a ∧ a < p + n then v / 256 ^ (a - p) % 256 else m a

/-- Read `n` bytes at `p`. -/
def load (s : State) (p n : Nat) : Except Fault Nat :=
  if inArena s p n then .ok (loadLE s.mem p n) else .error (.outOfArena p)

/-- Write the low `n` bytes of `v` at `p`. -/
def store (s : State) (p n v : Nat) : Except Fault State :=
  if inArena s p n then .ok { s with mem := storeLE s.mem p n v }
  else .error (.outOfArena p)

/-- Macro `PACK(size, alloc)`. -/
def PACK (size alloc : Nat) : Nat := size ||| alloc

/-- Macro `GET(p)`: the `int` at `p`, as its 32-bit pattern. -/
def GET (s : State) (p : Nat) : Except Fault Nat := load s p 4

/-- Macro `PUT(p, val)`: stores `(int)val` at `p`. -/
def PUT (s : State) (p val : Nat) : Except Fault State := store s p 4 val

/-- Conversion of an `int` bit pattern to `size_t` (sign extension). -/
def sext32 (v : Nat) : Nat := if v < 2 ^ 31 then v else v + (WORD - 2 ^ 32)

/-- Macro `GET_SIZE(p)`: `GET(p) & ~(WSIZE-1)`, a `size_t`. -/
def GET_SIZE (s : State) (p : Nat) : Except Fault Nat := do
  let v ← GET s p
  pure (sext32 v &&& (WORD - 1 - (WSIZE - 1)))

/-- Macro `GET_ALLOC(p)`: `GET(p) & 0x1`. -/
def GET_ALLOC (s : State) (p : Nat) : Except Fault Nat := do
  let v ← GET s p
  pure (v &&& 1)

/-- Macro `HDRP(bp)`. -/
def HDRP (bp : Nat) : Nat := (bp + WORD - WSIZE) % WORD

/-- Macro `FTRP(bp)`. -/
def FTRP (s : State) (bp : Nat) : Except Fault Nat := do
  let sz ← GET_SIZE s (HDRP bp)
  pure ((bp + sz + WORD - DSIZE) % WORD)

/-- Macro `NEXT_BLKP(bp)`. -/
def NEXT_BLKP (s : State) (bp : Nat) : Except Fault Nat := do
  let sz ← GET_SIZE s (HDRP bp)
  pure ((bp + sz) % WORD)

/-- Macro `PREV_BLKP(bp)`. -/
def PREV_BLKP (s : State) (bp : Nat) : Except Fault Nat := do
  let sz ← GET_SIZE s ((HDRP bp + WORD - WSIZE) % WORD)
  pure ((bp + WORD - sz) % WORD)

/-- Macro `GETNEXT(bp)`: address of the next-link of `bp`. -/
def GETNEXT (bp : Nat) : Nat := (bp + WSIZE) % WORD

/-- Macro `GETPREV(bp)`: address of the previous-link of `bp`. -/
def GETPREV (bp : Nat) : Nat := bp

/-- Read of a `char *` stored at `p`. -/
def getPtr (s : State) (p : Nat) : Except Fault Nat := load s p 8

/-- Write of the `char *` value `v` at `p`. -/
def setPtr (s : State) (p v : Nat) : Except Fault State := store s p 8 v

/-- Macro `SETNEXT(bp) = v`. -/
def SETNEXT (s : State) (bp v : Nat) : Except Fault State :=
  setPtr s ((bp + WSIZE) % WORD) v

/-- Macro `SETPREV(bp) = v`. -/
def SETPREV (s : State) (bp v : Nat) : Except Fault State := setPtr s bp v

/-- Conversion of an `int` to `size_t`. -/
def toSizeT (i : Int) : Nat := (i % (WORD : Int)).toNat

/-- Conversion of an `int` to `unsigned int`. -/
def toUInt (i : Int) : Nat := (i % (2 ^ 32 : Int)).toNat

/-- Address `heap_arrayp + free_list_place * WSIZE` of the current directory
entry. -/
def dirSlot (s : State) : Nat :=
  (s.heap_arrayp + toSizeT s.free_list_place * WSIZE % WORD) % WORD

/-- Modelled from the spec: the heap extender `mem_sbrk` of `memlib.h`, which
is not among the sources.  It hands out the memory right after everything
handed out before and fails with `(void *)-1` when the arena cannot grow. -/
def mem_sbrk (s : State) (incr : Nat) : Nat × State :=
  if s.mem_brk + incr ≤ s.mem_max_addr then
    (s.mem_brk, { s with mem_brk := s.mem_brk + incr })
  else (MEM_FAILED, s)

/-! ## Size classes -/

/-- Function `log_2` of the source, on an `unsigned int`. -/
def log_2 (n : Nat) : Int :=
  let pos : Int := 0
  let (n, pos) := if n ≥ 1 <<< 16 then (n >>> 16, pos + 16) else (n, pos)
  let (n, pos) := if n ≥ 1 <<< 8 then (n >>> 8, pos + 8) else (n, pos)
  let (n, pos) := if n ≥ 1 <<< 4 then (n >>> 4, pos + 4) else (n, pos)
  let (n, pos) := if n ≥ 1 <<< 2 then (n >>> 2, pos + 2) else (n, pos)
  let pos := if n ≥ 1 <<< 1 then pos + 1 else pos
  if n = 0 then -1 else pos

/-- Function `placement` of the source, on an `unsigned int`. -/
def placement (n : Nat) : Int :=
  if n ≤ 2 then 0
  else if n ≤ 3 then 1
  else if n ≤ 4 then 2
  else if n ≤ 8 then 3
  else if n ≤ 16 then 4
  else if n ≤ 32 then 5
  else if n ≤ 64 then 6
  else if n ≤ 128 then 7
  else -1

/-- Class index `placement(log_2(size))` that `mm_malloc` computes for a
`size_t` request: the argument is converted to `unsigned int`, the result of
`log_2` to `unsigned int` again. -/
def classify (size : Nat) : Int := placement (toUInt (log_2 (size % 2 ^ 32)))

/-- Adjusted block size computed by `mm_malloc` and `mm_realloc`. -/
def adjust (size : Nat) : Nat :=
  if size ≤ WSIZE then MINBLOCKSIZE
  else (2 * DSIZE + WSIZE * ((size + (WSIZE - 1)) % WORD / WSIZE) % WORD) % WORD

/-! ## Free-list bookkeeping -/

/-- Function `addToBeginningOfFreeList`. -/
def addToBeginningOfFreeList (s : State) (bp : Nat) : Except Fault State :=
  if s.free_listp = NULL then
    pure { s with free_listp := bp }
  else do
    let s ← SETNEXT s bp s.free_listp
    let s ← SETPREV s s.free_listp bp
    let s ← SETPREV s bp NULL
    pure { s with free_listp := bp }

/-- Function `removeBlockFromList`. -/
def removeBlockFromList (s : State) (bp : Nat) : Except Fault State := do
  let p ← GET s (GETPREV bp)
  if p ≠ 0 then
    let n ← GET s (GETNEXT bp)
    let s ← if n ≠ 0 then do
        let prev ← getPtr s (GETPREV bp)
        let next ← getPtr s (GETNEXT bp)
        SETNEXT s prev next
      else do
        let prev ← getPtr s (GETPREV bp)
        SETNEXT s prev NULL
    let next ← getPtr s (GETNEXT bp)
    let prev ← getPtr s (GETPREV bp)
    SETPREV s next prev
  else
    let next ← getPtr s (GETNEXT bp)
    let s := { s with free_listp := next }
    let s ← setPtr s (dirSlot s) s.free_listp
    let next ← getPtr s (GETNEXT bp)
    SETPREV s next bp

/-- Function `coalesce`. -/
def coalesce (s : State) (bp : Nat) : Except Fault (Nat × State) := do
  let prev_alloc ← GET_ALLOC s (← FTRP s (← PREV_BLKP s bp))
  let next_alloc ← GET_ALLOC s (HDRP (← NEXT_BLKP s bp))
  let size ← GET_SIZE s (HDRP bp)
  let prev_alloc := if (← PREV_BLKP s bp) = bp then 1 else prev_alloc
  let (bp, s) ←
    if prev_alloc ≠ 0 ∧ next_alloc ≠ 0 then do
      let s ← addToBeginningOfFreeList s bp
      pure (bp, s)
    else if prev_alloc ≠ 0 ∧ next_alloc = 0 then do
      let size := (size + (← GET_SIZE s (HDRP (← NEXT_BLKP s bp)))) % WORD
      let s ← removeBlockFromList s (← NEXT_BLKP s bp)
      let s ← PUT s (HDRP bp) (PACK size 0)
      let s ← PUT s (← FTRP s bp) (PACK size 0)
      let s ← addToBeginningOfFreeList s bp
      pure (bp, s)
    else if prev_alloc = 0 ∧ next_alloc ≠ 0 then do
      let size := (size + (← GET_SIZE s (HDRP (← PREV_BLKP s bp)))) % WORD
      let s ← removeBlockFromList s bp
      let bp ← PREV_BLKP s bp
      let s ← PUT s (HDRP bp) (PACK size 0)
      let s ← PUT s (← FTRP s bp) (PACK size 0)
      let s ← addToBeginningOfFreeList s bp
      pure (bp, s)
    else do
      let size := (size + ((← GET_SIZE s (HDRP (← PREV_BLKP s bp))) +
        (← GET_SIZE s (HDRP (← NEXT_BLKP s bp)))) % WORD) % WORD
      let s ← removeBlockFromList s (← PREV_BLKP s bp)
      let s ← removeBlockFromList s (← NEXT_BLKP s bp)
      let bp ← PREV_BLKP s bp
      let s ← PUT s (HDRP bp) (PACK size 0)
      let s ← PUT s (← FTRP s bp) (PACK size 0)
      let s ← addToBeginningOfFreeList s bp
      pure (bp, s)
  let s := { s with free_listp := bp }
  let s ← setPtr s (dirSlot s) s.free_listp
  pure (bp, s)

/-- Function `extend_heap`. -/
def extend_heap (s : State) (words : Nat) : Except Fault (Nat × State) := do
  let size := if words % 2 ≠ 0 then (words + 1) % WORD * WSIZE % WORD
    else words * WSIZE % WORD
  let size := if size < MINBLOCKSIZE then MINBLOCKSIZE else size
  let (bp, s) := mem_sbrk s size
  if bp = MEM_FAILED then
    pure (NULL, s)
  else do
    let s ← PUT s (HDRP bp) (PACK size 0)
    let s ← PUT s (← FTRP s bp) (PACK size 0)
    let s ← PUT s (HDRP (← NEXT_BLKP s bp)) (PACK 0 1)
    coalesce s bp

/-- Function `find_fit`.  Both branches of the loop body return, so the loop
runs its body at most once. -/
def find_fit (s : State) (asize : Nat) : Except Fault Nat := do
  let bp := s.free_listp
  if (← GET_ALLOC s (HDRP bp)) = 0 then
    if asize ≤ (← GET_SIZE s (HDRP bp)) then pure bp else pure NULL
  else
    pure NULL

/-- Function `place`. -/
def place (s : State) (bp asize : Nat) : Except Fault State := do
  let csize ← GET_SIZE s (HDRP bp)
  if (csize + WORD - asize) % WORD ≥ MINBLOCKSIZE then
    let s ← PUT s (HDRP bp) (PACK asize 1)
    let s ← PUT s (← FTRP s bp) (PACK asize 1)
    let s ← removeBlockFromList s bp
    if (← GET s (GETNEXT bp)) ≠ 0 then
      let bp ← NEXT_BLKP s bp
      let s ← PUT s (HDRP bp) (PACK ((csize + WORD - asize) % WORD) 0)
      let s ← PUT s (← FTRP s bp) (PACK ((csize + WORD - asize) % WORD) 0)
      let (_, s) ← coalesce s bp
      pure s
    else
      pure s
  else
    let s ← PUT s (HDRP bp) (PACK csize 1)
    let s ← PUT s (← FTRP s bp) (PACK csize 1)
    removeBlockFromList s bp

/-! ## The heap checker -/

/-- Function `checkblock`: its reads. -/
def checkblock (s : State) (bp : Nat) : Except Fault Unit := do
  let _ ← GET s (HDRP bp)
  let _ ← GET s (← FTRP s bp)
  pure ()

/-- Function `printblock`: its reads. -/
def printblock (s : State) (bp : Nat) : Except Fault Unit := do
  let _ ← GET_SIZE s (HDRP bp)
  let _ ← GET_ALLOC s (HDRP bp)
  let _ ← GET_SIZE s (← FTRP s bp)
  let _ ← GET_ALLOC s (← FTRP s bp)
  pure ()

/-- The `for` loop of `checkheap`, following next-links from `bp` until a
header of size zero; returns the block at which it stops. -/
def checkheap_walk (s : State) (verbose : Bool) : Nat → Nat → Except Fault Nat
  | 0, _ => .error .diverges
  | fuel + 1, bp => do
    if (← GET_SIZE s (HDRP bp)) > 0 then
      if verbose then printblock s bp
      checkblock s bp
      checkheap_walk s verbose fuel (← getPtr s (GETNEXT bp))
    else
      pure bp

/-- Function `checkheap`.  The walk reads memory without changing it, and every
block it passes has its next-link inside the arena, so a walk longer than the
arena has bytes has come back to a block it already left and never ends. -/
def checkheap (s : State) (verbose : Bool) : Except Fault State := do
  let s := { s with heap_listp := (← getPtr s (dirSlot s)) }
  if (← GET_SIZE s (HDRP s.heap_listp)) = MINBLOCKSIZE then
    let _ ← GET_ALLOC s (HDRP s.heap_listp)
  checkblock s s.heap_listp
  let bp ← checkheap_walk s verbose (s.mem_max_addr - s.mem_start_brk + 1) s.heap_listp
  if verbose then printblock s bp
  if (← GET_SIZE s (HDRP bp)) = 0 then
    let _ ← GET_ALLOC s (HDRP bp)
  pure s

/-! ## The public operations -/

/-- Function `mm_init`. -/
def mm_init (s : State) : Except Fault (Int × State) := do
  let (p, s) := mem_sbrk s (NUMFREELISTS * 8)
  let s := { s with heap_arrayp := p }
  if p = MEM_FAILED then
    pure (-1, s)
  else do
    let s ← (List.range NUMFREELISTS).foldlM
      (fun s index => store s ((s.heap_arrayp + index * WSIZE) % WORD) 1 0) s
    pure (0, s)

/-- Function `mm_init2`. -/
def mm_init2 (s : State) : Except Fault (Nat × State) := do
  let (p, s) := mem_sbrk s MINBLOCKSIZE
  let s := { s with heap_listp := p }
  if p = MEM_FAILED then
    pure (0, s)
  else do
    let s ← PUT s s.heap_listp (PACK MINBLOCKSIZE 1)
    let s ← PUT s ((s.heap_listp + 1 * WSIZE) % WORD) 0
    let s ← PUT s ((s.heap_listp + 2 * WSIZE) % WORD) 0
    let s ← PUT s ((s.heap_listp + MINBLOCKSIZE) % WORD) (PACK MINBLOCKSIZE 1)
    let s ← PUT s ((s.heap_listp + MINBLOCKSIZE + WSIZE) % WORD) (PACK 0 1)
    let s := { s with free_listp := (s.heap_listp + WSIZE) % WORD }
    let (r, s) ← extend_heap s (CHUNKSIZE / WSIZE)
    if r = NULL then pure (0, s) else pure (s.free_listp, s)

/-- Function `mm_malloc`. -/
def mm_malloc (trace : Bool) (s : State) (size : Nat) : Except Fault (Nat × State) := do
  if size ≤ 0 then
    pure (NULL, s)
  else do
    let s := { s with free_list_place := classify size }
    let s ← if (← getPtr s (dirSlot s)) = 0 then do
        let (r, s) ← mm_init2 s
        setPtr s (dirSlot s) r
      else pure s
    let s := { s with free_listp := (← getPtr s (dirSlot s)) }
    let asize := adjust size
    let bp ← find_fit s asize
    if bp ≠ NULL then
      let s ← place s bp asize
      pure (bp, s)
    else do
      let extendsize := if asize > CHUNKSIZE then asize else CHUNKSIZE
      let (bp, s) ← extend_heap s (extendsize / WSIZE)
      if bp = NULL then
        pure (NULL, s)
      else do
        let s ← place s bp asize
        let s ← if trace then checkheap s true else pure s
        pure (bp, s)

/-- Function `mm_free`. -/
def mm_free (trace : Bool) (s : State) (bp : Nat) : Except Fault State := do
  if bp = NULL then
    pure s
  else do
    let size ← GET_SIZE s (HDRP bp)
    let s ← PUT s (HDRP bp) (PACK size 0)
    let s ← PUT s (← FTRP s bp) (PACK size 0)
    let (_, s) ← coalesce s bp
    if trace then checkheap s true else pure s

/-- Library function `memcpy` on disjoint ranges: the `n` bytes at `src` are
stored at `dst`. -/
def memcpy (s : State) (dst src n : Nat) : Except Fault State :=
  if ¬ inArena s dst n then .error (.outOfArena dst)
  else if ¬ inArena s src n then .error (.outOfArena src)
  else .ok { s with mem := fun a =>
    if dst ≤ a ∧ a < dst + n then s.mem (src + (a - dst)) else s.mem a }

/-- Function `mm_realloc`. -/
def mm_realloc (trace : Bool) (s : State) (ptr size : Nat) :
    Except Fault (Nat × State) := do
  let asize := adjust size
  if size = 0 then
    let s ← mm_free trace s ptr
    pure (NULL, s)
  else if ptr = NULL then
    mm_malloc trace s size
  else do
    let oldsize ← GET_SIZE s (HDRP ptr)
    if asize = oldsize ∨ (oldsize + WORD - asize) % WORD ≤ MINBLOCKSIZE then
      pure (ptr, s)
    else if oldsize ≥ asize then
      let s ← PUT s (HDRP ptr) (PACK size 1)
      let s ← PUT s (← FTRP s ptr) (PACK size 1)
      let s ← PUT s (HDRP (← NEXT_BLKP s ptr)) (PACK ((oldsize + WORD - size) % WORD) 1)
      let s ← mm_free trace s (← NEXT_BLKP s ptr)
      pure (ptr, s)
    else do
      let (newptr, s) ← mm_malloc trace s size
      if newptr = NULL then
        pure (NULL, s)
      else do
        let oldsize := if size < oldsize then size else oldsize
        let s ← memcpy s newptr ptr oldsize
        let s ← mm_free trace s ptr
        pure (newptr, s)

/-! ## Observing runs -/

/-- An arena of `len` zero bytes at `base`, nothing handed out yet, with the
file-scope variables zero-initialised. -/
def arena (base len : Nat) : State :=
  { mem := fun _ => 0, mem_start_brk := base, mem_brk := base,
    mem_max_addr := base + len, heap_listp := 0, free_listp := 0,
    heap_arrayp := 0, free_list_place := 0 }

/-- State after `mm_init` on an arena of `len` zero bytes at `base`. -/
def fresh (base len : Nat) : Except Fault State := do
  let (_, s) ← mm_init (arena base len)
  pure s

/-- The fault that ended a run, if one did. -/
def faultOf {α : Type} (r : Except Fault α) : Option Fault :=
  match r with
  | .ok _ => none
  | .error e => some e

/-- The value a run returned, if it returned. -/
def retVal {α : Type} (r : Except Fault (α × State)) : Option α :=
  match r with
  | .ok (v, _) => some v
  | .error _ => none

/-! ## The size-class table as the spec words it -/

/-- The bucket bounds of the size-class table. -/
def bucketBounds : List Nat := [2, 3, 4, 8, 16, 32, 64, 128]

/-- Class index as the spec words it: the index of the first bucket whose
bound is at least `floor(log2(n))`. -/
def classify_spec (n : Nat) : Option Nat :=
  bucketBounds.findIdx? (fun b => Nat.log2 n ≤ b)

/-! ## Checked properties -/

theorem adjust_lt_WORD (size : Nat) : adjust size < WORD := by
  unfold adjust
  split
  · decide
  · exact Nat.mod_lt _ (by decide)

/-- A load sees only the bytes of its own range. -/
theorem loadLE_congr (m m2 : Nat → Nat) (n : Nat) : ∀ p : Nat,
    (∀ a, p ≤ a → a < p + n → m a = m2 a) → loadLE m p n = loadLE m2 p n := by
  induction n with
  | zero => intro p _; rfl
  | succ k ih =>
    intro p h
    simp only [loadLE]
    rw [h p (Nat.le_refl p) (by omega), ih (p + 1) (fun a h1 h2 => h a (by omega) (by omega))]

/-- Reading back what was just written gives the low `n` bytes of the value. -/
theorem loadLE_storeLE_same (m : Nat → Nat) (n : Nat) : ∀ p v : Nat,
    loadLE (storeLE m p n v) p n = v % 256 ^ n := by
  induction n with
  | zero => intro p v; simp [loadLE, Nat.mod_one]
  | succ k ih =>
    intro p v
    have hrest : loadLE (storeLE m p (k + 1) v) (p + 1) k
        = loadLE (storeLE m (p + 1) k (v / 256)) (p + 1) k := by
      apply loadLE_congr
      intro a h1 h2
      have e : a - p = (a - (p + 1)) + 1 := by omega
      have c1 : p ≤ a ∧ a < p + (k + 1) := by omega
      have c2 : p + 1 ≤ a ∧ a < p + 1 + k := by omega
      simp only [storeLE, c1, c2, and_self, if_true]
      rw [e, Nat.pow_succ, Nat.mul_comm, Nat.div_div_eq_div_mul]
    have h0 : storeLE m p (k + 1) v p = v % 256 := by
      have c : p ≤ p ∧ p < p + (k + 1) := by omega
      simp [storeLE, c]
    simp only [loadLE]
    rw [hrest, ih, h0, Nat.mod_mod, Nat.pow_succ, Nat.mul_comm (256 ^ k) 256, Nat.mod_mul]

/-- Bounds of `log_2` on a non-zero `unsigned int`. -/
theorem log_2_bounds (n : Nat) (h1 : 1 ≤ n) (h2 : n < 2 ^ 32) :
    0 ≤ log_2 n ∧ log_2 n ≤ 31 ∧ 2 ^ (log_2 n).toNat ≤ n ∧ n < 2 ^ ((log_2 n).toNat + 1) := by
  have e16 : (1 : Nat) <<< 16 = 65536 := by decide
  have e8 : (1 : Nat) <<< 8 = 256 := by decide
  have e4 : (1 : Nat) <<< 4 = 16 := by decide
  have e2 : (1 : Nat) <<< 2 = 4 := by decide
  have e1 : (1 : Nat) <<< 1 = 2 := by decide
  have h32 : (2:Nat) ^ 32 = 4294967296 := by decide
  rw [h32] at h2
  clear h32
  unfold log_2
  simp only [e16, e8, e4, e2, e1, Nat.shiftRight_eq_div_pow]
  clear e16 e8 e4 e2 e1
  split_ifs
  all_goals simp only [Nat.reducePow, ge_iff_le, not_le] at *
  all_goals first
    | (exfalso; omega)
    | (simp only [Int.reduceAdd, Int.reduceToNat, Int.toNat_ofNat, Nat.reducePow,
        Nat.reduceAdd, zero_add]; omega)

/-- There is one exponent `k` with `2 ^ k ≤ n < 2 ^ (k + 1)`. -/
theorem pow_bracket_unique (n j k : Nat) (hj1 : 2 ^ j ≤ n) (hj2 : n < 2 ^ (j + 1))
    (hk1 : 2 ^ k ≤ n) (hk2 : n < 2 ^ (k + 1)) : j = k := by
  rcases Nat.lt_trichotomy j k with h | h | h
  · have : 2 ^ (j + 1) ≤ 2 ^ k := Nat.pow_le_pow_right (by decide) h
    omega
  · exact h
  · have : 2 ^ (k + 1) ≤ 2 ^ j := Nat.pow_le_pow_right (by decide) h
    omega

/-- The built-in binary logarithm is the exponent of the bracket. -/
theorem log2_of_bracket (n k : Nat) (h1 : 2 ^ k ≤ n) (h2 : n < 2 ^ (k + 1)) :
    Nat.log2 n = k := by
  have hn : n ≠ 0 := by
    have : 0 < 2 ^ k := Nat.pos_pow_of_pos k (by decide)
    omega
  exact pow_bracket_unique n _ _ (Nat.log2_self_le hn) Nat.lt_log2_self h1 h2

/-- For a request that fits an `unsigned int`, the class index of the source
is the one of the spec's table, and it lies inside the directory. -/
theorem classify_eq_spec (n : Nat) (h1 : 1 ≤ n) (h2 : n < 2 ^ 32) :
    0 ≤ classify n ∧ classify n < NUMFREELISTS
      ∧ classify_spec n = some (classify n).toNat := by
  obtain ⟨h0, h31, hlo, hhi⟩ := log_2_bounds n h1 h2
  have hlog := log2_of_bracket n _ hlo hhi
  have hmod : n % 2 ^ 32 = n := Nat.mod_eq_of_lt h2
  unfold classify classify_spec
  rw [hmod, hlog]
  generalize log_2 n = l at h0 h31
  clear hlo hhi hlog hmod
  have hl : l = 0 ∨ l = 1 ∨ l = 2 ∨ l = 3 ∨ l = 4 ∨ l = 5 ∨ l = 6 ∨ l = 7 ∨ l = 8 ∨ l = 9
      ∨ l = 10 ∨ l = 11 ∨ l = 12 ∨ l = 13 ∨ l = 14 ∨ l = 15 ∨ l = 16 ∨ l = 17 ∨ l = 18
      ∨ l = 19 ∨ l = 20 ∨ l = 21 ∨ l = 22 ∨ l = 23 ∨ l = 24 ∨ l = 25 ∨ l = 26 ∨ l = 27
      ∨ l = 28 ∨ l = 29 ∨ l = 30 ∨ l = 31 := by omega
  rcases hl with h | h | h | h | h | h | h | h | h | h | h | h | h | h | h | h | h | h | h
    | h | h | h | h | h | h | h | h | h | h | h | h | h <;> subst h <;> decide

/-- When the heap extender refuses the prologue, `mm_init2` returns 0. -/
theorem mm_init2_of_full (s : State)
    (h : ¬ (s.mem_brk + MINBLOCKSIZE ≤ s.mem_max_addr)) :
    mm_init2 s = .ok (0, { s with heap_listp := MEM_FAILED }) := by
  unfold mm_init2 mem_sbrk
  rw [if_neg h]
  rfl

/-- With a null list head, `find_fit` reads the header word of the null
pointer, which no arena below the top of the address space contains. -/
theorem find_fit_of_null (s : State) (asize : Nat)
    (h0 : s.free_listp = NULL) (htop : s.mem_max_addr ≤ WORD - WSIZE) :
    find_fit s asize = .error (.outOfArena (HDRP NULL)) := by
  have e : HDRP NULL = 18446744073709551608 := by decide
  have e2 : WORD - WSIZE = 18446744073709551608 := by decide
  rw [e2] at htop
  have h : ¬ inArena s (HDRP NULL) 4 := by
    rw [e]
    simp only [inArena]
    omega
  simp only [find_fit, GET_ALLOC, GET, load, h0, h, if_false, bind, Except.bind]

/-- For every request `size > 0`, in every state whose directory entry for the
class of `size` is empty and whose heap extender cannot supply the
`MINBLOCKSIZE` bytes of the prologue, `mm_malloc(size)` does not return: it
reads the header word of the null list head, outside the arena. -/
theorem mm_malloc_reads_null_head (trace : Bool) (s : State) (size : Nat)
    (hsize : size ≠ 0)
    (hslot : getPtr s (dirSlot { s with free_list_place := classify size }) = .ok 0)
    (hfull : s.mem_max_addr < s.mem_brk + MINBLOCKSIZE)
    (htop : s.mem_max_addr ≤ WORD - WSIZE) :
    mm_malloc trace s size = .error (.outOfArena (HDRP NULL)) := by
  have hsz : ¬ size ≤ 0 := by omega
  have hsbrk : ¬ (s.mem_brk + MINBLOCKSIZE ≤ s.mem_max_addr) := by omega
  unfold mm_malloc
  rw [if_neg hsz]
  generalize classify size = c at hslot ⊢
  generalize adjust size = asize
  simp only [mm_init2_of_full { s with free_list_place := c } hsbrk]
  simp only [getPtr, load, dirSlot, inArena] at hslot
  split at hslot
  · rename_i hin
    simp only [Except.ok.injEq] at hslot
    simp only [getPtr, setPtr, load, store, dirSlot, inArena, bind, Except.bind, pure,
      Except.pure, hin, and_self, if_true, hslot, loadLE_storeLE_same, Nat.zero_mod]
    rw [find_fit_of_null]
    · rfl
    · exact htop
  · simp at hslot

/-- For every block `ptr` of size `oldsize` and every request `size > 0` whose
adjusted size is larger, in every state whose directory entry for the class of
`size` is empty and whose heap extender cannot supply the prologue,
`mm_realloc(ptr, size)` does not return `NULL`: it ends in the read of
`mm_malloc` at the header word of the null list head. -/
theorem mm_realloc_reads_null_head (trace : Bool) (s : State) (ptr size oldsize : Nat)
    (hptr : ptr ≠ NULL) (hsize : size ≠ 0)
    (hold : GET_SIZE s (HDRP ptr) = .ok oldsize)
    (hmin : MINBLOCKSIZE ≤ oldsize)
    (hgrow : oldsize < adjust size)
    (hslot : getPtr s (dirSlot { s with free_list_place := classify size }) = .ok 0)
    (hfull : s.mem_max_addr < s.mem_brk + MINBLOCKSIZE)
    (htop : s.mem_max_addr ≤ WORD - WSIZE) :
    mm_realloc trace s ptr size = .error (.outOfArena (HDRP NULL)) := by
  have hlt := adjust_lt_WORD size
  have hmb : MINBLOCKSIZE = 40 := by decide
  have hne : ¬ (adjust size = oldsize ∨ (oldsize + WORD - adjust size) % WORD ≤ MINBLOCKSIZE) := by
    intro h
    rcases h with h | h
    · omega
    · rw [Nat.mod_eq_of_lt (by omega)] at h
      omega
  have hge : ¬ (oldsize ≥ adjust size) := by omega
  have hm := mm_malloc_reads_null_head trace s size hsize hslot hfull htop
  unfold mm_realloc
  simp only [hsize, hptr, if_false, hold, hne, hge, hm, bind, Except.bind]

/-- When the remainder `oldsize - asize` is exactly `MINBLOCKSIZE`, the guard
`oldsize - asize <= MINBLOCKSIZE` makes `mm_realloc` return `ptr` and change
nothing. -/
theorem mm_realloc_exact_remainder_noop (trace : Bool) (s : State) (ptr size oldsize : Nat)
    (hptr : ptr ≠ NULL) (hsize : size ≠ 0)
    (hold : GET_SIZE s (HDRP ptr) = .ok oldsize)
    (hrem : oldsize = adjust size + MINBLOCKSIZE) :
    mm_realloc trace s ptr size = .ok (ptr, s) := by
  have hmb : MINBLOCKSIZE = 40 := by decide
  have hw : WORD = 18446744073709551616 := by decide
  have hc : (adjust size = oldsize ∨ (oldsize + WORD - adjust size) % WORD ≤ MINBLOCKSIZE) := by
    right
    have : oldsize + WORD - adjust size = MINBLOCKSIZE + WORD := by omega
    rw [this, Nat.add_mod_right, hmb, hw]
  unfold mm_realloc
  simp only [hsize, hptr, if_false, hold, hc, if_true, bind, Except.bind, pure, Except.pure]

/-- C1, sufficiency of `mm_malloc`.  On a fresh arena each of the seven
requests `mm_malloc(SIZE_MAX - k)`, `k < 7`, returns the non-null pointer
`65640` whose block is marked allocated and has size `32`: the sum
`size + (WSIZE - 1)` wraps around, the adjusted size becomes `2 * DSIZE`, and
the `16` bytes between header and footer are fewer than the bytes requested. -/
theorem mm_malloc_size_max_returns_short_block :
    ∀ k : Fin 7, ∀ trace : Bool,
      (do
        let s ← fresh 65536 1048576
        let (bp, s) ← mm_malloc trace s (2 ^ 64 - 1 - k.val)
        pure (bp, ← GET_ALLOC s (HDRP bp), ← GET_SIZE s (HDRP bp))).toOption
        = some (65640, 1, 32)
      ∧ adjust (2 ^ 64 - 1 - k.val) = 32
      ∧ ¬ (32 - 2 * WSIZE ≥ 2 ^ 64 - 1 - k.val) := by
  decide!

/-- C2, alignment of returned pointers.  On a fresh arena at any of the 32
bases `65536 + 16 * k`, all multiples of `DSIZE`, the first call
`mm_malloc(10)` returns base + 104: the 64-byte directory and the 40-byte
prologue precede it.  The pointer is a multiple of `WSIZE` and not of `DSIZE`
(for `k = 0` it is `65640`). -/
theorem first_mm_malloc_not_doubleword_aligned :
    ∀ k : Fin 32, ∀ trace : Bool,
      retVal (do
        let s ← fresh (65536 + 16 * k.val) 1048576
        mm_malloc trace s 10) = some (65536 + 16 * k.val + 104)
      ∧ (65536 + 16 * k.val) % DSIZE = 0
      ∧ (65536 + 16 * k.val + 104) % WSIZE = 0
      ∧ (65536 + 16 * k.val + 104) % DSIZE = 8 := by
  decide!

/-- C4, shrinking `mm_realloc`.  With the tracing statements removed:
`p = mm_malloc(200)` is a block of 232 bytes (header `233`), and
`mm_realloc(p, 104)`, whose adjusted size 136 leaves a remainder of 96 bytes,
returns `p` with header and footer `105 = PACK(104, 1)` instead of
`137 = PACK(136, 1)`; the footer lands at offset 88 of the payload, inside the
first 104 bytes, and changes the byte there from `0` to `105`.  With a
remainder of exactly `MINBLOCKSIZE` (`mm_realloc(p, 160)`) the block is left
as it was, with or without the tracing statements.  With the tracing
statements as written the shrinking call ends in `checkheap`, which follows
the list into the null pointer. -/
theorem mm_realloc_shrink_retags_with_request_size :
    (do
      let s ← fresh 65536 1048576
      let (p, s) ← mm_malloc false s 200
      let hdr ← GET s (HDRP p)
      let before ← load s (p + 88) 1
      let (q, s) ← mm_realloc false s p 104
      let hdr2 ← GET s (HDRP q)
      let ftr2 ← GET s (← FTRP s q)
      let after ← load s (p + 88) 1
      pure [p, hdr, before, q, hdr2, ftr2, after]).toOption
      = some [65640, 233, 0, 65640, 105, 105, 105]
    ∧ adjust 104 = 136 ∧ PACK (adjust 104) 1 = 137 ∧ 232 - adjust 104 ≥ MINBLOCKSIZE
    ∧ (∀ trace : Bool, (do
      let s ← fresh 65536 1048576
      let (p, s) ← mm_malloc trace s 200
      let (q, s) ← mm_realloc trace s p 160
      pure (q, ← GET s (HDRP q))).toOption = some (65640, 233))
    ∧ 232 - adjust 160 = MINBLOCKSIZE
    ∧ faultOf (do
      let s ← fresh 65536 1048576
      let (p, s) ← mm_malloc true s 200
      mm_realloc true s p 104) = some (.outOfArena (2 ^ 64 - 8)) := by
  decide!

/-- C6, growing `mm_realloc` on an exhausted arena.  The arena holds exactly
the directory and the sub-heap of the first size class.  `p = mm_malloc(1)`
succeeds; `mm_realloc(p, 9)` needs a block of the second size class, whose
sub-heap does not exist, the heap extender refuses the prologue, `mm_init2`
returns 0, and `find_fit` reads the header of the null list head at address
`2 ^ 64 - 8`, outside the arena: the call does not return `NULL`.  When the
size class of the request has its sub-heap already (`mm_malloc(4000)` then
`mm_realloc(p, 5000)`), the call returns `NULL` and leaves the header
`4033` of the block as it was. -/
theorem mm_realloc_faults_when_bootstrap_fails :
    ∀ trace : Bool,
      (do
        let s ← fresh 65536 4200
        let (p, _) ← mm_malloc trace s 1
        pure p).toOption = some 65640
      ∧ faultOf (do
        let s ← fresh 65536 4200
        let (p, s) ← mm_malloc trace s 1
        mm_realloc trace s p 9) = some (.outOfArena (2 ^ 64 - 8))
      ∧ (do
        let s ← fresh 65536 4200
        let (p, s) ← mm_malloc trace s 4000
        let hdr ← GET s (HDRP p)
        let (q, s) ← mm_realloc trace s p 5000
        pure (p, hdr, q, ← GET s (HDRP p))).toOption = some (65640, 4033, 0, 4033) := by
  decide!

/-- C7, `mm_malloc` when the heap extender fails.  On a fresh arena that holds
the directory only (64 bytes), `mm_malloc(1)` does not return `NULL`: the first
request of `mm_init2` fails, the directory entry and the list head become 0,
and `find_fit` reads at `2 ^ 64 - 8`.  With room for the prologue but not for
the chunk (200 bytes) the second request fails and the same read follows.  With
room for the 40 bytes of the prologue only (104 bytes), `mm_init2` writes the
prologue footer at `65640`, the first byte after the arena. -/
theorem mm_malloc_faults_when_bootstrap_fails :
    ∀ trace : Bool,
      faultOf (do
        let s ← fresh 65536 64
        mm_malloc trace s 1) = some (.outOfArena (2 ^ 64 - 8))
      ∧ faultOf (do
        let s ← fresh 65536 200
        mm_malloc trace s 1) = some (.outOfArena (2 ^ 64 - 8))
      ∧ faultOf (do
        let s ← fresh 65536 104
        mm_malloc trace s 1) = some (.outOfArena 65640) := by
  decide!

/-- C8, `mm_malloc(0)`.  In every state the call returns `NULL` and the state
it leaves is the state it was given: memory, directory, list head, class index
and the break of the heap extender are unchanged. -/
theorem mm_malloc_zero_noop (trace : Bool) (s : State) :
    mm_malloc trace s 0 = .ok (NULL, s) := rfl

/-- C9, the identities of `mm_realloc`.  In every state and for every pointer,
`mm_realloc(ptr, 0)` returns `NULL` with the state of `mm_free(ptr)` (and ends
as `mm_free(ptr)` ends if that does not return), and `mm_realloc(NULL, n)` is
`mm_malloc(n)`: same pointer, same state. -/
theorem mm_realloc_identities (trace : Bool) (s : State) (ptr n : Nat) :
    mm_realloc trace s ptr 0 = (mm_free trace s ptr).map (fun s1 => (NULL, s1))
    ∧ mm_realloc trace s NULL n = mm_malloc trace s n := by
  constructor
  · unfold mm_realloc
    cases h : mm_free trace s ptr <;> simp [h, bind, Except.bind, Except.map, pure, Except.pure]
  · unfold mm_realloc
    by_cases h : n = 0
    · subst h
      rfl
    · simp [h, NULL]

/-- C10, boundary tags.  After `mm_init` and one `mm_malloc(10)` the prologue
block of the sub-heap (block pointer `65608`, the word after `heap_listp`) has
header `41 = PACK(MINBLOCKSIZE, 1)`, while the word at its `FTRP` is `49`, the
header of the block just allocated: `mm_init2` writes the prologue footer one
word further up, where the first block's links overwrite it. -/
theorem prologue_footer_differs_from_header :
    ∀ trace : Bool,
      (do
        let s ← fresh 65536 1048576
        let (_, s) ← mm_malloc trace s 10
        let prologue := (s.heap_listp + WSIZE) % WORD
        pure (s.heap_listp, prologue, ← GET s (HDRP prologue),
          ← GET s (← FTRP s prologue))).toOption
        = some (65600, 65608, 41, 49) := by
  decide!

/-- C14, the free list that `mm_free` uses.  With the tracing statements
removed: `a = mm_malloc(4)` comes from class 0 (directory entry at
`heap_arrayp`), `b = mm_malloc(100)` from class 3 (entry at
`heap_arrayp + 24`).  `mm_free(a)` leaves the entry of class 0 as it was
(`65680`) and stores the freed block `a = 65640` in the entry of class 3,
which held `69912`: the class index is the one left by the last `mm_malloc`. -/
theorem mm_free_uses_class_of_last_malloc :
    (do
      let s ← fresh 65536 1048576
      let (a, s) ← mm_malloc false s 4
      let (b, s) ← mm_malloc false s 100
      let d0 ← getPtr s (s.heap_arrayp + 0 * WSIZE)
      let d3 ← getPtr s (s.heap_arrayp + 3 * WSIZE)
      let s ← mm_free false s a
      pure [a, b, d0, d3, ← getPtr s (s.heap_arrayp + 0 * WSIZE),
        ← getPtr s (s.heap_arrayp + 3 * WSIZE)]).toOption
      = some [65640, 69776, 65680, 69912, 65680, 65640]
    ∧ classify 4 = 0 ∧ classify 100 = 3 := by
  decide!

/-- C15, first fit.  With the tracing statements removed, after
`a = mm_malloc(100)`, `b = mm_malloc(100)`, `mm_free(a)` the free list is
`65640` (free, 136 bytes, no previous block), `65912` (free, 3824 bytes,
previous-link `65640`) and the prologue sentinel `65608`.  `find_fit(232)`
returns `NULL`, although the second block of the list has 3824 bytes: the
loop body returns on the first block whether it fits or not. -/
theorem find_fit_stops_at_first_block :
    (do
      let s ← fresh 65536 1048576
      let (a, s) ← mm_malloc false s 100
      let (_, s) ← mm_malloc false s 100
      let s ← mm_free false s a
      let hd := s.free_listp
      let nx ← getPtr s (GETNEXT hd)
      let nn ← getPtr s (GETNEXT nx)
      pure [hd, ← getPtr s (GETPREV hd), ← GET_ALLOC s (HDRP hd), ← GET_SIZE s (HDRP hd),
        nx, ← getPtr s (GETPREV nx), ← GET_ALLOC s (HDRP nx), ← GET_SIZE s (HDRP nx),
        nn, ← GET_ALLOC s (HDRP nn), ← find_fit s 232]).toOption
      = some [65640, 0, 0, 136, 65912, 65640, 0, 3824, 65608, 1, 0] := by
  decide!

/-- C16, `coalesce`.  With the tracing statements removed, after
`a = mm_malloc(100)`, `b = mm_malloc(100)`, `mm_free(a)`, the block `b` is
tagged free as `mm_free` does and `coalesce(b)` is called with both
neighbours free (previous `a = 65640`, 136 bytes; next `65912`, 3824 bytes).
It returns `65640` with header and footer `4096`, the sum of the three sizes,
as the list head; but the next-link of the returned block is `65912`, the
absorbed next neighbour, which is therefore still reachable in the free
list. -/
theorem coalesce_leaves_absorbed_neighbour_in_list :
    (do
      let s ← fresh 65536 1048576
      let (a, s) ← mm_malloc false s 100
      let (b, s) ← mm_malloc false s 100
      let s ← mm_free false s a
      let size ← GET_SIZE s (HDRP b)
      let s ← PUT s (HDRP b) (PACK size 0)
      let s ← PUT s (← FTRP s b) (PACK size 0)
      let pv ← PREV_BLKP s b
      let nx ← NEXT_BLKP s b
      let pa ← GET s (HDRP pv)
      let na ← GET s (HDRP nx)
      let (r, s) ← coalesce s b
      pure [b, size, pv, pa, nx, na, r, ← GET s (HDRP r), ← GET s (← FTRP s r),
        s.free_listp, ← getPtr s (GETNEXT r)]).toOption
      = some [65776, 136, 65640, 136, 65912, 3824, 65640, 4096, 4096, 65640, 65912]
    ∧ 136 + 136 + 3824 = 4096 := by
  decide!

/-- C17, `place`.  With the tracing statements removed, after
`a = mm_malloc(100)`, `b = mm_malloc(100)`, `mm_free(a)`, `d = mm_malloc(100)`
the free list of the class starts with `bp = 65912`, a free block of 3824
bytes whose previous-link still holds `65640`.  `place(bp, 136)` tags `bp`
with header and footer `137 = PACK(136, 1)` and makes the remainder `66048`
(3688 bytes, free) the list head; the next-link of that head is `bp`: the
block just allocated is still reachable in the free list. -/
theorem place_leaves_block_in_list :
    (do
      let s ← fresh 65536 1048576
      let (a, s) ← mm_malloc false s 100
      let (_, s) ← mm_malloc false s 100
      let s ← mm_free false s a
      let (_, s) ← mm_malloc false s 100
      let bp := s.free_listp
      let hdr ← GET s (HDRP bp)
      let dir ← getPtr s (dirSlot s)
      let pv ← getPtr s (GETPREV bp)
      let s ← place s bp 136
      let hd := s.free_listp
      pure [bp, hdr, dir, pv, ← GET s (HDRP bp), ← GET s (← FTRP s bp), hd,
        ← GET s (HDRP hd), ← getPtr s (dirSlot s), ← getPtr s (GETNEXT hd)]).toOption
      = some [65912, 3824, 65912, 65640, 137, 137, 66048, 3688, 66048, 65912]
    ∧ 3824 - 136 ≥ MINBLOCKSIZE ∧ PACK 136 1 = 137 := by
  decide!

/-- C18, class index of `mm_malloc`.  The request `2 ^ 32` is a `size_t`
greater than zero; converted to `unsigned int` it is `0`, `log_2` gives `-1`
and `placement` gives `-1`, which is no index of the directory, while the
table of the spec gives class `5` for `floor(log2(2 ^ 32)) = 32`.  With that
index `mm_malloc` reads the directory slot `heap_arrayp - 8 = 65528`, one word
below the directory and below the arena.  The request `2 ^ 32 + 1` gets class
`0` where the table gives `5`. -/
theorem classify_out_of_directory :
    classify (2 ^ 32) = -1 ∧ classify_spec (2 ^ 32) = some 5
    ∧ classify (2 ^ 32 + 1) = 0 ∧ classify_spec (2 ^ 32 + 1) = some 5
    ∧ (∀ trace : Bool, faultOf (do
        let s ← fresh 65536 1048576
        mm_malloc trace s (2 ^ 32)) = some (.outOfArena 65528))
    ∧ (fresh 65536 1048576).toOption.map (fun s => s.heap_arrayp) = some 65536 := by
  refine ⟨by decide!, ?_, by decide!, ?_, by decide!, by decide!⟩
  · unfold classify_spec
    rw [log2_of_bracket (2 ^ 32) 32 (by decide) (by decide)]
    decide
  · unfold classify_spec
    rw [log2_of_bracket (2 ^ 32 + 1) 32 (by decide) (by decide)]
    decide

/-- C19, `log_2` is the floor of the binary logarithm.  For every unsigned
32-bit `n >= 1` there is a `k` in `0 .. 31` with `log_2 n = k` and
`2 ^ k <= n < 2 ^ (k + 1)`; this `k` is `Nat.log2 n` and it is the only
exponent with that bracket; and `log_2 0 = -1`. -/
theorem log_2_floor (n : Nat) (h1 : 1 ≤ n) (h2 : n < 2 ^ 32) :
    (∃ k : Nat, log_2 n = (k : Int) ∧ k ≤ 31 ∧ 2 ^ k ≤ n ∧ n < 2 ^ (k + 1)
      ∧ k = Nat.log2 n ∧ ∀ j : Nat, 2 ^ j ≤ n → n < 2 ^ (j + 1) → j = k)
    ∧ log_2 0 = -1 := by
  obtain ⟨h0, h31, hlo, hhi⟩ := log_2_bounds n h1 h2
  refine ⟨⟨(log_2 n).toNat, ?_, ?_, hlo, hhi, ?_, ?_⟩, by decide⟩
  · exact (Int.toNat_of_nonneg h0).symm
  · omega
  · exact (log2_of_bracket n _ hlo hhi).symm
  · intro j hj1 hj2
    exact pow_bracket_unique n _ _ hj1 hj2 hlo hhi

/-- Instance of `log_2_floor` at `n = 1000`, where `k = 9`. -/
theorem log_2_floor_witness :
    (1 ≤ 1000 ∧ 1000 < 2 ^ 32) ∧
    ((∃ k : Nat, log_2 1000 = (k : Int) ∧ k ≤ 31 ∧ 2 ^ k ≤ 1000 ∧ 1000 < 2 ^ (k + 1)
      ∧ k = Nat.log2 1000 ∧ ∀ j : Nat, 2 ^ j ≤ 1000 → 1000 < 2 ^ (j + 1) → j = k)
    ∧ log_2 0 = -1) :=
  ⟨by decide, log_2_floor 1000 (by decide) (by decide)⟩

/-- C3, payload of a live block.  For both settings of the tracing statements:
`a = mm_malloc(2 ^ 64 - 32)` returns the non-null pointer `65640`; the
adjusted size has wrapped around to `0`, so `place` hands the block out with
its size field still `4096`, and the byte at `a + 16`, inside the `4080`
bytes between header and footer, is `0`.  The next call,
`mm_malloc(2 ^ 64 - 1)`, is not applied to `a`; it writes the footer tag
`33 = PACK(32, 1)` at `a + 16`: the byte of the live block's payload changes
from `0` to `33`. -/
theorem mm_malloc_writes_tag_into_live_payload :
    (∀ trace : Bool,
      (do
        let s ← fresh 65536 1048576
        let (a, s) ← mm_malloc trace s (2 ^ 64 - 32)
        let size ← GET_SIZE s (HDRP a)
        let before ← load s (a + 16) 1
        let (b, s) ← mm_malloc trace s (2 ^ 64 - 1)
        let after ← load s (a + 16) 1
        pure [a, size, before, b, after, ← GET s (← FTRP s b)]).toOption
      = some [65640, 4096, 0, 65640, 33, 33])
    ∧ adjust (2 ^ 64 - 32) = 0 ∧ adjust (2 ^ 64 - 1) = 32 ∧ PACK 32 1 = 33
    ∧ 16 < 4096 - 2 * WSIZE := by
  decide!

/-- C12, block sizes.  For both settings of the tracing statements: after
`mm_init` and `mm_malloc(1)` the prologue's size field and the size field of
the block handed out are both `40`, and so is the adjusted size of a one-byte
request: `40` is `MINBLOCKSIZE`, a multiple of `WSIZE = 8` and not of
`DSIZE = 16`.  And `mm_malloc(2 ^ 64 - 1)` hands out a block whose size field
is `32`, less than `MINBLOCKSIZE`. -/
theorem block_size_not_doubleword_multiple :
    (∀ trace : Bool,
      (do
        let s ← fresh 65536 1048576
        let (p, s) ← mm_malloc trace s 1
        pure [p, s.heap_listp, ← GET_SIZE s s.heap_listp, ← GET_SIZE s (HDRP p)]).toOption
      = some [65640, 65600, 40, 40])
    ∧ adjust 1 = 40 ∧ MINBLOCKSIZE = 40 ∧ 40 % DSIZE = 8 ∧ 40 % WSIZE = 0
    ∧ (∀ trace : Bool,
      (do
        let s ← fresh 65536 1048576
        let (p, s) ← mm_malloc trace s (2 ^ 64 - 1)
        pure [p, ← GET_SIZE s (HDRP p)]).toOption = some [65640, 32])
    ∧ 32 < MINBLOCKSIZE := by
  decide!

/-- C13, coalescing run.  In the source as written, on the fresh arena the
requests `A = B = 4`, both of class `0`, return `a = 65640` and `b = 65680`,
and `mm_free(a)` does not return: `checkheap` follows the free list past the
prologue sentinel into the null pointer and reads at `2 ^ 64 - 8`.  For
`A = B = 3000`, of class `4` like their sum, and both settings of the tracing
statements, the first request returns `65640` and the second does not return:
it extends a sub-heap whose last block is free, and `coalesce` writes through
the null pointer. -/
theorem coalescing_run_does_not_return :
    ((do
      let s ← fresh 65536 1048576
      let (a, s) ← mm_malloc true s 4
      let (b, _) ← mm_malloc true s 4
      pure [a, b]).toOption = some [65640, 65680])
    ∧ classify 4 = 0
    ∧ faultOf (do
        let s ← fresh 65536 1048576
        let (a, s) ← mm_malloc true s 4
        let (_, s) ← mm_malloc true s 4
        mm_free true s a) = some (.outOfArena 18446744073709551608)
    ∧ (∀ trace : Bool,
      (do
        let s ← fresh 65536 1048576
        let (a, _) ← mm_malloc trace s 3000
        pure a).toOption = some 65640
      ∧ faultOf (do
        let s ← fresh 65536 1048576
        let (_, s) ← mm_malloc trace s 3000
        mm_malloc trace s 3000) = some (.outOfArena 0))
    ∧ classify 3000 = 4 ∧ classify (3000 + 3000) = 4 := by
  decide!

/-- C20, disjoint live blocks.  For both settings of the tracing statements:
`a = mm_malloc(2 ^ 64 - 32)` and `b = mm_malloc(2 ^ 64 - 1)` both return the
non-null pointer `65640`, and neither is released.  The adjusted size of the
first request has wrapped around to `0`, so `place` leaves the block at the
head of the free list and the second request is served from it.  Both live
allocations have the block `[65632, 65664)` of `32` bytes. -/
theorem mm_malloc_returns_live_block_again :
    (∀ trace : Bool,
      (do
        let s ← fresh 65536 1048576
        let (a, s) ← mm_malloc trace s (2 ^ 64 - 32)
        let (b, s) ← mm_malloc trace s (2 ^ 64 - 1)
        pure [a, b, ← GET_SIZE s (HDRP a), ← GET_ALLOC s (HDRP a),
          ← GET_SIZE s (HDRP b), ← GET_ALLOC s (HDRP b)]).toOption
      = some [65640, 65640, 32, 1, 32, 1])
    ∧ 65640 - WSIZE < 65640 - WSIZE + 32 := by
  decide!

end Malloc
